import Mathlib

/-!
Verification of the Mystic Realms enhanced game server
(`src/enhanced_server.py`) against its natural-language specification.

The Python source is shallowly embedded: pure fragments become Lean
functions, the random number generator becomes an explicit oracle stream,
dictionaries become association lists, and loops become fuel-indexed
structural recursion (the fuel is exactly the loop's own attempt bound
where the source has one).  Coordinates are embedded as integers where the
source works with `random.randint` results and as rationals where the
source divides by two (tile centers).
-/

namespace MysticRealms

/-! ## Spawn-position generation (`_generateOptimizedSpawnPositions`) -/

/-- The rejection test of `_generateOptimizedSpawnPositions`:
`abs(x - px) < 100 and abs(y - py) < 100` for an accepted position `p`. -/
def spawnTooClose (x y : ℤ) (p : ℤ × ℤ) : Bool :=
  |x - p.1| < 100 && |y - p.2| < 100

/-- One iteration body of `_generateOptimizedSpawnPositions`: draw the
candidate `x = boundaries[0] + random.randint(0, serverBoundaryCoordinates[0])`,
`y = boundaries[1] + random.randint(0, serverBoundaryCoordinates[1])`
(`stream attempts` is the pair of `randint` results drawn at this attempt),
and add it to the accepted set unless it is within 100 units of an accepted
position in both axes.  The accepted set is kept as a list (a candidate
equal to an accepted position is always rejected by the distance test, so
no duplicate is ever inserted). -/
def spawnStep (stream : ℕ → ℤ × ℤ) (bx b_y : ℤ) (positions : List (ℤ × ℤ))
    (attempts : ℕ) : List (ℤ × ℤ) :=
  let x := bx + (stream attempts).1
  let y := b_y + (stream attempts).2
  if positions.any (spawnTooClose x y) then positions else (x, y) :: positions

/-- The `while` loop of `_generateOptimizedSpawnPositions`.  `fuel` is
`maxAttempts - attempts`, so the guard `attempts < maxAttempts` is the
`fuel = 0` case.  Returns the accepted positions together with the final
value of the `attempts` counter. -/
def spawnLoop (stream : ℕ → ℤ × ℤ) (bx b_y : ℤ) (count : ℕ) :
    List (ℤ × ℤ) → ℕ → ℕ → List (ℤ × ℤ) × ℕ
  | positions, attempts, 0 => (positions, attempts)
  | positions, attempts, fuel + 1 =>
    if positions.length < count then
      spawnLoop stream bx b_y count (spawnStep stream bx b_y positions attempts)
        (attempts + 1) fuel
    else
      (positions, attempts)

/-- `_generateOptimizedSpawnPositions(count, boundaries)`: starts from the
empty accepted set, `attempts = 0`, and `maxAttempts = count * 10`. -/
def generateOptimizedSpawnPositions (stream : ℕ → ℤ × ℤ) (bx b_y : ℤ)
    (count : ℕ) : List (ℤ × ℤ) × ℕ :=
  spawnLoop stream bx b_y count [] 0 (count * 10)

/-- Separation in at least one axis by at least 100 units. -/
def axisSeparated (p q : ℤ × ℤ) : Prop :=
  100 ≤ |p.1 - q.1| ∨ 100 ≤ |p.2 - q.2|

/-- Membership in the rectangle `[bx, bx+W] × [b_y, b_y+H]`. -/
def inRegion (bx b_y w h : ℤ) (p : ℤ × ℤ) : Prop :=
  bx ≤ p.1 ∧ p.1 ≤ bx + w ∧ b_y ≤ p.2 ∧ p.2 ≤ b_y + h

/-- The `randint` contract for the candidate stream: each drawn offset lies
in `[0, serverBoundaryCoordinates[0]] × [0, serverBoundaryCoordinates[1]]`. -/
def streamInBounds (stream : ℕ → ℤ × ℤ) (w h : ℤ) : Prop :=
  ∀ i, 0 ≤ (stream i).1 ∧ (stream i).1 ≤ w ∧ 0 ≤ (stream i).2 ∧ (stream i).2 ≤ h

theorem spawnStep_sub (stream : ℕ → ℤ × ℤ) (bx b_y : ℤ)
    (positions : List (ℤ × ℤ)) (attempts : ℕ) :
    spawnStep stream bx b_y positions attempts = positions ∨
      spawnStep stream bx b_y positions attempts =
        (bx + (stream attempts).1, b_y + (stream attempts).2) :: positions := by
  simp only [spawnStep]
  split
  · exact Or.inl rfl
  · exact Or.inr rfl

theorem spawnStep_separated (stream : ℕ → ℤ × ℤ) (bx b_y : ℤ)
    (positions : List (ℤ × ℤ)) (attempts : ℕ)
    (h : positions.Pairwise axisSeparated) :
    (spawnStep stream bx b_y positions attempts).Pairwise axisSeparated := by
  simp only [spawnStep]
  split
  · exact h
  · rename_i hany
    rw [List.pairwise_cons]
    refine ⟨fun q hq => ?_, h⟩
    have hfalse : ¬ spawnTooClose (bx + (stream attempts).1)
        (b_y + (stream attempts).2) q = true := by
      intro hco
      exact hany (List.any_eq_true.mpr ⟨q, hq, hco⟩)
    simp only [spawnTooClose, Bool.and_eq_true, decide_eq_true_eq, not_and_or,
      not_lt] at hfalse
    unfold axisSeparated
    simpa using hfalse

theorem spawnLoop_spec (stream : ℕ → ℤ × ℤ) (bx b_y w h : ℤ) (count : ℕ)
    (hs : streamInBounds stream w h) :
    ∀ (fuel : ℕ) (positions : List (ℤ × ℤ)) (attempts : ℕ),
      positions.length ≤ count →
      (∀ p ∈ positions, inRegion bx b_y w h p) →
      positions.Pairwise axisSeparated →
      (spawnLoop stream bx b_y count positions attempts fuel).1.length ≤ count ∧
        (∀ p ∈ (spawnLoop stream bx b_y count positions attempts fuel).1,
          inRegion bx b_y w h p) ∧
        (spawnLoop stream bx b_y count positions attempts fuel).1.Pairwise
          axisSeparated ∧
        (spawnLoop stream bx b_y count positions attempts fuel).2 ≤
          attempts + fuel := by
  intro fuel
  induction fuel with
  | zero =>
    intro positions attempts h1 h2 h3
    exact ⟨h1, h2, h3, Nat.le_add_right _ _⟩
  | succ n ih =>
    intro positions attempts h1 h2 h3
    rw [spawnLoop]
    split
    · rename_i hlt
      have hstep := spawnStep_sub stream bx b_y positions attempts
      have hlen : (spawnStep stream bx b_y positions attempts).length ≤ count := by
        rcases hstep with he | he <;> rw [he]
        · exact h1
        · simpa using hlt
      have hmem : ∀ p ∈ spawnStep stream bx b_y positions attempts,
          inRegion bx b_y w h p := by
        intro p hp
        rcases hstep with he | he <;> rw [he] at hp
        · exact h2 p hp
        · rcases List.mem_cons.mp hp with hp | hp
          · subst hp
            rcases hs attempts with ⟨ha, hb, hc, hd⟩
            unfold inRegion
            refine ⟨?_, ?_, ?_, ?_⟩ <;> simp <;> omega
          · exact h2 p hp
      have hsep := spawnStep_separated stream bx b_y positions attempts h3
      have := ih (spawnStep stream bx b_y positions attempts) (attempts + 1)
        hlen hmem hsep
      refine ⟨this.1, this.2.1, this.2.2.1, ?_⟩
      have := this.2.2.2
      omega
    · exact ⟨h1, h2, h3, by omega⟩

/-- C1: for every requested count and region corner, the spawn-position
generator returns at most `count` positions, each inside the region
rectangle, pairwise separated by at least 100 units in at least one axis
(a candidate is rejected exactly when it is within 100 units of an
accepted position in both axes), and the final `attempts` counter is at
most `10 * count`. -/
theorem C1_spawn_generation (stream : ℕ → ℤ × ℤ) (bx b_y w h : ℤ) (count : ℕ)
    (hs : streamInBounds stream w h) :
    (generateOptimizedSpawnPositions stream bx b_y count).1.length ≤ count ∧
      (∀ p ∈ (generateOptimizedSpawnPositions stream bx b_y count).1,
        inRegion bx b_y w h p) ∧
      (generateOptimizedSpawnPositions stream bx b_y count).1.Pairwise
        axisSeparated ∧
      (generateOptimizedSpawnPositions stream bx b_y count).2 ≤ 10 * count := by
  have := spawnLoop_spec stream bx b_y w h count hs (count * 10) [] 0
    (by simp) (by simp) (by simp)
  unfold generateOptimizedSpawnPositions
  refine ⟨this.1, this.2.1, this.2.2.1, ?_⟩
  have := this.2.2.2
  omega

/-- Witness for C1: the constant stream `(0, 0)` in the square
`[0, 200] × [0, 200]` with one requested position. -/
theorem C1_spawn_generation_witness :
    streamInBounds (fun _ => ((0 : ℤ), (0 : ℤ))) 200 200 ∧
      ((generateOptimizedSpawnPositions (fun _ => ((0 : ℤ), (0 : ℤ))) 0 0 1).1.length ≤ 1 ∧
        (∀ p ∈ (generateOptimizedSpawnPositions (fun _ => ((0 : ℤ), (0 : ℤ))) 0 0 1).1,
          inRegion 0 0 200 200 p) ∧
        (generateOptimizedSpawnPositions (fun _ => ((0 : ℤ), (0 : ℤ))) 0 0 1).1.Pairwise
          axisSeparated ∧
        (generateOptimizedSpawnPositions (fun _ => ((0 : ℤ), (0 : ℤ))) 0 0 1).2 ≤ 10 * 1) :=
  ⟨fun i => by norm_num,
    C1_spawn_generation (fun _ => ((0 : ℤ), (0 : ℤ))) 0 0 200 200 1
      (fun i => by norm_num)⟩

/-! ## Spatial index (`_extractCollidableTilesOptimized`,
`_buildOptimizedCollisionKdTree`) -/

/-- A collision rectangle `(x, width, y, height)` as stored in the
`collidableElements` set.  Coordinates are rationals because tile centers
divide `width` and `height` by two. -/
structure CollisionTile where
  x : ℚ
  width : ℚ
  y : ℚ
  height : ℚ
deriving DecidableEq, Repr

/-- A raw `pytmx` map object, before the `-500` / `-330` shift. -/
structure TiledObject where
  x : ℚ
  width : ℚ
  y : ℚ
  height : ℚ
deriving DecidableEq, Repr

/-- A `pytmx` map layer: the extraction keeps only object groups whose
name is `collision_boundaries`. -/
structure MapLayer where
  isObjectGroup : Bool
  name : String
  objects : List TiledObject

/-- The shifted collision rectangle built from one map object:
`(obj.x - 500, obj.width, obj.y - 330, obj.height)`. -/
def shiftedTile (o : TiledObject) : CollisionTile :=
  ⟨o.x - 500, o.width, o.y - 330, o.height⟩

/-- Model of Python `set.update`: append the new elements and remove
duplicates.  `List.dedup` keeps one occurrence of every element, which is
all the set semantics the server relies on. -/
def setUpdate {α : Type} [DecidableEq α] (a b : List α) : List α :=
  (a ++ b).dedup

/-- One layer of the extraction: union in the shifted rectangles when the
layer is an object group named `collision_boundaries`, else leave the set
unchanged. -/
def extractStep (acc : List CollisionTile) (layer : MapLayer) :
    List CollisionTile :=
  if layer.isObjectGroup = true ∧ layer.name = "collision_boundaries" then
    setUpdate acc (layer.objects.map shiftedTile)
  else acc

/-- `_extractCollidableTilesOptimized`: fold over the map layers, union in
the shifted rectangles of every object group named
`collision_boundaries`. -/
def extractCollidableTilesOptimized (layers : List MapLayer) :
    List CollisionTile :=
  layers.foldl extractStep []

/-- The center point inserted into the k-d tree for a tile:
`(x + width / 2, y - height / 2)`. -/
def tileCenter (t : CollisionTile) : ℚ × ℚ :=
  (t.x + t.width / 2, t.y - t.height / 2)

/-- Squared Euclidean distance between two points. -/
def dist2 (p q : ℚ × ℚ) : ℚ :=
  (p.1 - q.1) ^ 2 + (p.2 - q.2) ^ 2

/-- Model of a Python dict built from a list of key/value pairs (the
`positionToTileMapping` comprehension): a later pair with the same key
overwrites an earlier one, so lookup returns the value of the last
matching pair. -/
def dictOfPairs {α β : Type} [DecidableEq α] :
    List (α × β) → α → Option β
  | [], _ => none
  | (a, b) :: rest, k =>
    match dictOfPairs rest k with
    | some v => some v
    | none => if a = k then some b else none

/-- `_buildOptimizedCollisionKdTree`: the list of tile centers fed to
`KDTree`, and the center-to-tile dictionary built by zipping the centers
with the tiles. -/
def buildOptimizedCollisionKdTree (collidableElements : List CollisionTile) :
    List (ℚ × ℚ) × ((ℚ × ℚ) → Option CollisionTile) :=
  let collisionPositions := collidableElements.map tileCenter
  (collisionPositions, dictOfPairs (collisionPositions.zip collidableElements))

/-- Model of the `scipy.spatial.KDTree` constructor: it raises
`ValueError` when the data list is empty (the point dimensionality cannot
be inferred from an empty array), and otherwise stores the points. -/
def kdtreeBuild (pts : List (ℚ × ℚ)) : Except String (List (ℚ × ℚ)) :=
  if pts.isEmpty then .error "data must be 2 dimensions" else .ok pts

/-- `_buildOptimizedCollisionKdTree` with the `KDTree` constructor
failure made explicit. -/
def buildOptimizedCollisionKdTreeE (collidableElements : List CollisionTile) :
    Except String (List (ℚ × ℚ) × ((ℚ × ℚ) → Option CollisionTile)) :=
  match kdtreeBuild (collidableElements.map tileCenter) with
  | .error e => .error e
  | .ok tree => .ok (tree, dictOfPairs (tree.zip collidableElements))

/-- Whether an `Except` computation succeeded. -/
def exceptSucceeded {ε α : Type} : Except ε α → Bool
  | .ok _ => true
  | .error _ => false

/-- Model of `KDTree.query` for a single nearest neighbour: scan the data
points keeping the current best, replacing it only on a strict
improvement, so the first point achieving the minimal Euclidean distance
is selected. -/
def nearestPointAux (q : ℚ × ℚ) : ℚ × ℚ → List (ℚ × ℚ) → ℚ × ℚ
  | best, [] => best
  | best, p :: ps =>
    nearestPointAux q (if dist2 p q < dist2 best q then p else best) ps

/-- `KDTree.query(q)` on a data list: `none` on an empty tree. -/
def kdtreeNearestPoint (pts : List (ℚ × ℚ)) (q : ℚ × ℚ) : Option (ℚ × ℚ) :=
  match pts with
  | [] => none
  | p :: ps => some (nearestPointAux q p ps)

/-- The composite nearest-tile query of the spatial index: `KDTree.query`
on the collision positions followed by the `positionToTileMapping`
lookup. -/
def nearestTile (collidableElements : List CollisionTile) (q : ℚ × ℚ) :
    Option CollisionTile :=
  match kdtreeNearestPoint (buildOptimizedCollisionKdTree collidableElements).1 q with
  | none => none
  | some p => (buildOptimizedCollisionKdTree collidableElements).2 p

/-- The specification's words for the nearest query: the tile minimizing
Euclidean distance from the query point to the tile's center, ties broken
deterministically by stable input order (the first minimizing tile of the
input list). -/
def specNearestTile (tiles : List CollisionTile) (q : ℚ × ℚ) :
    Option CollisionTile :=
  match tiles with
  | [] => none
  | t :: ts =>
    some (ts.foldl
      (fun best u =>
        if dist2 (tileCenter u) q < dist2 (tileCenter best) q then u else best) t)

/-- The last tile of the input list whose center is the given point. -/
def lastTileWithCenter : List CollisionTile → ℚ × ℚ → Option CollisionTile
  | [], _ => none
  | t :: ts, p =>
    match lastTileWithCenter ts p with
    | some u => some u
    | none => if tileCenter t = p then some t else none

theorem nearestPointAux_mem (q : ℚ × ℚ) :
    ∀ (ps : List (ℚ × ℚ)) (best : ℚ × ℚ), nearestPointAux q best ps ∈ best :: ps := by
  intro ps
  induction ps with
  | nil => intro best; simp [nearestPointAux]
  | cons p ps ih =>
    intro best
    rw [nearestPointAux]
    rcases List.mem_cons.mp (ih (if dist2 p q < dist2 best q then p else best)) with
      h | h
    · rw [h]
      split
      · exact List.mem_cons_of_mem _ (List.mem_cons_self _ _)
      · exact List.mem_cons_self _ _
    · exact List.mem_cons_of_mem _ (List.mem_cons_of_mem _ h)

theorem nearestPointAux_min (q : ℚ × ℚ) :
    ∀ (ps : List (ℚ × ℚ)) (best r : ℚ × ℚ), r ∈ best :: ps →
      dist2 (nearestPointAux q best ps) q ≤ dist2 r q := by
  intro ps
  induction ps with
  | nil =>
    intro best r hr
    rcases List.mem_cons.mp hr with h | h
    · rw [h]; simp [nearestPointAux]
    · simp at h
  | cons p ps ih =>
    intro best r hr
    rw [nearestPointAux]
    have hle_best : dist2 (if dist2 p q < dist2 best q then p else best) q ≤
        dist2 best q := by
      split
      · rename_i hsp; exact le_of_lt hsp
      · exact le_refl _
    have hle_p : dist2 (if dist2 p q < dist2 best q then p else best) q ≤
        dist2 p q := by
      split
      · exact le_refl _
      · rename_i hsp; exact le_of_not_lt hsp
    have hhead := ih (if dist2 p q < dist2 best q then p else best)
      (if dist2 p q < dist2 best q then p else best) (List.mem_cons_self _ _)
    rcases List.mem_cons.mp hr with h | h
    · rw [h]; exact le_trans hhead hle_best
    · rcases List.mem_cons.mp h with h | h
      · rw [h]; exact le_trans hhead hle_p
      · exact ih _ r (List.mem_cons_of_mem _ h)

theorem dictOfPairs_zip_centers (tiles : List CollisionTile) (p : ℚ × ℚ) :
    dictOfPairs ((tiles.map tileCenter).zip tiles) p =
      lastTileWithCenter tiles p := by
  induction tiles with
  | nil => rfl
  | cons t ts ih =>
    rw [List.map_cons, List.zip_cons_cons, dictOfPairs, ih, lastTileWithCenter]
    cases lastTileWithCenter ts p <;> rfl

theorem lastTileWithCenter_isSome (p : ℚ × ℚ) :
    ∀ tiles : List CollisionTile, p ∈ tiles.map tileCenter →
      ∃ t, lastTileWithCenter tiles p = some t := by
  intro tiles
  induction tiles with
  | nil => intro h; simp at h
  | cons t ts ih =>
    intro h
    rw [lastTileWithCenter]
    cases hlast : lastTileWithCenter ts p with
    | some u => exact ⟨u, rfl⟩
    | none =>
      have h2 : p = tileCenter t ∨ ∃ a ∈ ts, tileCenter a = p := by simpa using h
      rcases h2 with h1 | ⟨a, ha, hap⟩
      · exact ⟨t, by simp [h1]⟩
      · have hm : p ∈ ts.map tileCenter := List.mem_map.mpr ⟨a, ha, hap⟩
        rcases ih hm with ⟨u, hu⟩
        rw [hu] at hlast
        exact absurd hlast (by simp)

theorem lastTileWithCenter_spec (p : ℚ × ℚ) :
    ∀ (tiles : List CollisionTile) (t : CollisionTile),
      lastTileWithCenter tiles p = some t → t ∈ tiles ∧ tileCenter t = p := by
  intro tiles
  induction tiles with
  | nil => intro t h; simp [lastTileWithCenter] at h
  | cons u ts ih =>
    intro t h
    rw [lastTileWithCenter] at h
    cases hlast : lastTileWithCenter ts p with
    | some v =>
      rw [hlast] at h
      have hv : v = t := by simpa using h
      rcases ih v hlast with ⟨hmem, hc⟩
      rw [hv] at hmem hc
      exact ⟨List.mem_cons_of_mem _ hmem, hc⟩
    | none =>
      rw [hlast] at h
      by_cases hc : tileCenter u = p
      · rw [if_pos hc] at h
        have : u = t := by simpa using h
        rw [this] at hc
        exact ⟨this ▸ List.mem_cons_self _ _, hc⟩
      · rw [if_neg hc] at h
        simp at h

/-- C3 (amended): for every nonempty static tile set and query point, the
index's nearest query returns a tile whose center minimizes Euclidean
distance from the query point; among tiles sharing that minimizing
center, the returned tile is the last one in input order (the
position-to-tile dictionary overwrites earlier tiles with equal
centers). -/
theorem C3_nearest_tile_amended (tiles : List CollisionTile) (q : ℚ × ℚ)
    (hne : tiles ≠ []) :
    ∃ t, nearestTile tiles q = some t ∧ t ∈ tiles ∧
      (∀ u ∈ tiles, dist2 (tileCenter t) q ≤ dist2 (tileCenter u) q) ∧
      lastTileWithCenter tiles (tileCenter t) = some t := by
  obtain ⟨t0, ts, rfl⟩ := List.exists_cons_of_ne_nil hne
  have hbuild1 : (buildOptimizedCollisionKdTree (t0 :: ts)).1 =
      tileCenter t0 :: ts.map tileCenter := rfl
  have hquery : kdtreeNearestPoint (buildOptimizedCollisionKdTree (t0 :: ts)).1 q =
      some (nearestPointAux q (tileCenter t0) (ts.map tileCenter)) := rfl
  have hpmem : nearestPointAux q (tileCenter t0) (ts.map tileCenter) ∈
      (t0 :: ts).map tileCenter := by
    simpa using nearestPointAux_mem q (ts.map tileCenter) (tileCenter t0)
  obtain ⟨t, ht⟩ := lastTileWithCenter_isSome _ (t0 :: ts) hpmem
  obtain ⟨htmem, htc⟩ := lastTileWithCenter_spec _ (t0 :: ts) t ht
  refine ⟨t, ?_, htmem, ?_, ?_⟩
  · rw [nearestTile, hquery]
    show dictOfPairs (((t0 :: ts).map tileCenter).zip (t0 :: ts)) _ = some t
    rw [dictOfPairs_zip_centers]
    exact ht
  · intro u hu
    rw [htc]
    have : tileCenter u ∈ tileCenter t0 :: ts.map tileCenter := by
      simpa using List.mem_map_of_mem tileCenter hu
    exact nearestPointAux_min q (ts.map tileCenter) (tileCenter t0) (tileCenter u)
      this
  · rw [htc]; exact ht

/-- Witness for C3 (amended): a singleton tile set queried at the
origin. -/
theorem C3_nearest_tile_amended_witness :
    ([(⟨0, 0, 0, 0⟩ : CollisionTile)] ≠ []) ∧
      (∃ t, nearestTile [(⟨0, 0, 0, 0⟩ : CollisionTile)] (0, 0) = some t ∧
        t ∈ [(⟨0, 0, 0, 0⟩ : CollisionTile)] ∧
        (∀ u ∈ [(⟨0, 0, 0, 0⟩ : CollisionTile)],
          dist2 (tileCenter t) (0, 0) ≤ dist2 (tileCenter u) (0, 0)) ∧
        lastTileWithCenter [(⟨0, 0, 0, 0⟩ : CollisionTile)] (tileCenter t) =
          some t) :=
  ⟨by simp, C3_nearest_tile_amended [⟨0, 0, 0, 0⟩] (0, 0) (by simp)⟩

/-- C3 counterexample: the tiles `(0, 10, 0, 10)` and `(4, 2, -4, 2)` are
distinct but share the center `(5, -5)`; querying at that exact point
returns the second tile, while stable-input-order tie-breaking (the
specification reading, `specNearestTile`) selects the first. -/
theorem C3_counterexample :
    nearestTile [⟨0, 10, 0, 10⟩, ⟨4, 2, -4, 2⟩] (5, -5) =
        some ⟨4, 2, -4, 2⟩ ∧
      specNearestTile [⟨0, 10, 0, 10⟩, ⟨4, 2, -4, 2⟩] (5, -5) =
        some ⟨0, 10, 0, 10⟩ ∧
      nearestTile [⟨0, 10, 0, 10⟩, ⟨4, 2, -4, 2⟩] (5, -5) ≠
        specNearestTile [⟨0, 10, 0, 10⟩, ⟨4, 2, -4, 2⟩] (5, -5) := by
  refine ⟨?_, ?_, ?_⟩ <;>
    norm_num [nearestTile, buildOptimizedCollisionKdTree, kdtreeNearestPoint,
      nearestPointAux, dictOfPairs, tileCenter, dist2, specNearestTile,
      CollisionTile.mk.injEq]

theorem extractStep_mem (acc : List CollisionTile) (l : MapLayer)
    (t : CollisionTile) :
    t ∈ extractStep acc l ↔
      t ∈ acc ∨ (l.isObjectGroup = true ∧ l.name = "collision_boundaries" ∧
        ∃ o ∈ l.objects, t = shiftedTile o) := by
  unfold extractStep setUpdate
  split
  · rename_i hcond
    rw [List.mem_dedup, List.mem_append, List.mem_map]
    constructor
    · rintro (h | ⟨o, ho, rfl⟩)
      · exact Or.inl h
      · exact Or.inr ⟨hcond.1, hcond.2, o, ho, rfl⟩
    · rintro (h | ⟨_, _, o, ho, rfl⟩)
      · exact Or.inl h
      · exact Or.inr ⟨o, ho, rfl⟩
  · rename_i hcond
    constructor
    · exact Or.inl
    · rintro (h | ⟨h1, h2, _⟩)
      · exact h
      · exact absurd ⟨h1, h2⟩ hcond

theorem extract_foldl_mem (layers : List MapLayer) :
    ∀ (acc : List CollisionTile) (t : CollisionTile),
      t ∈ layers.foldl extractStep acc ↔
        t ∈ acc ∨ ∃ l ∈ layers, l.isObjectGroup = true ∧
          l.name = "collision_boundaries" ∧ ∃ o ∈ l.objects, t = shiftedTile o := by
  induction layers with
  | nil => intro acc t; simp
  | cons l ls ih =>
    intro acc t
    rw [List.foldl_cons, ih, extractStep_mem]
    constructor
    · rintro ((h | h) | ⟨l2, hl2, hp⟩)
      · exact Or.inl h
      · exact Or.inr ⟨l, List.mem_cons_self _ _, h.1, h.2.1, h.2.2⟩
      · exact Or.inr ⟨l2, List.mem_cons_of_mem _ hl2, hp⟩
    · rintro (h | ⟨l2, hl2, hp⟩)
      · exact Or.inl (Or.inl h)
      · rcases List.mem_cons.mp hl2 with h2 | h2
        · exact Or.inl (Or.inr (h2 ▸ hp))
        · exact Or.inr ⟨l2, h2, hp⟩

theorem extract_foldl_nodup (layers : List MapLayer) :
    ∀ acc : List CollisionTile, acc.Nodup →
      (layers.foldl extractStep acc).Nodup := by
  induction layers with
  | nil => intro acc h; simpa
  | cons l ls ih =>
    intro acc h
    rw [List.foldl_cons]
    apply ih
    unfold extractStep setUpdate
    split
    · exact List.nodup_dedup _
    · exact h

/-- C4: the spatial index is built from the deduplicated set of shifted
collision rectangles of the `collision_boundaries` object groups, and for
every tile rectangle the point inserted into the index is the center
`(x + width / 2, y - height / 2)`. -/
theorem C4_build_from_dedup_centers (layers : List MapLayer) :
    (extractCollidableTilesOptimized layers).Nodup ∧
      (∀ t, t ∈ extractCollidableTilesOptimized layers ↔
        ∃ l ∈ layers, l.isObjectGroup = true ∧
          l.name = "collision_boundaries" ∧
          ∃ o ∈ l.objects, t = shiftedTile o) ∧
      (buildOptimizedCollisionKdTree (extractCollidableTilesOptimized layers)).1 =
        (extractCollidableTilesOptimized layers).map tileCenter ∧
      ∀ t : CollisionTile,
        tileCenter t = (t.x + t.width / 2, t.y - t.height / 2) := by
  refine ⟨extract_foldl_nodup layers [] (by simp), fun t => ?_, rfl, fun t => rfl⟩
  rw [extractCollidableTilesOptimized, extract_foldl_mem]
  simp

/-- Witness for C4: a single `collision_boundaries` layer with one
object. -/
theorem C4_build_from_dedup_centers_witness :
    (extractCollidableTilesOptimized
      [⟨true, "collision_boundaries", [⟨500, 10, 330, 10⟩]⟩]).Nodup :=
  (C4_build_from_dedup_centers
    [⟨true, "collision_boundaries", [⟨500, 10, 330, 10⟩]⟩]).1

/-- C5 counterexample: with zero collidable tiles, the k-d tree
constructor raises (`scipy` rejects an empty data array), so building the
spatial index fails instead of yielding a queryable-empty index. -/
theorem C5_counterexample :
    buildOptimizedCollisionKdTreeE [] = .error "data must be 2 dimensions" := rfl

/-- C5 (amended): building the spatial index succeeds exactly on a
nonempty tile set; on the empty tile set the k-d tree constructor raises
and the build fails, the error propagating to the caller. -/
theorem C5_empty_build_fails (tiles : List CollisionTile) :
    exceptSucceeded (buildOptimizedCollisionKdTreeE tiles) = !tiles.isEmpty := by
  cases tiles <;> rfl

/-! ## Load-balancer discovery loop (`_establishLoadBalancerConnection`) -/

/-- What one iteration of the discovery loop receives on the UDP
broadcast socket.  The bodies of `_processLoadBalancerHandshake` and
`_receiveConnectionConfirmation` are not among the available source
files; modelled from the spec: `packet valid confirmOk` records whether
the received broadcast is a valid versioned handshake packet and whether
the subsequent confirmation message arrives, `timeout` is
`socket.timeout` raised by `recvfrom`, and `error` is any other exception
of the iteration (the handler recreates the TCP socket and retries). -/
inductive LbEvent where
  | timeout
  | error
  | packet (valid : Bool) (confirmOk : Bool)
deriving DecidableEq, Repr

/-- Observable protocol actions of the discovery loop, in the order they
are performed. -/
inductive LbAction where
  | recvHandshake (valid : Bool)
  | sendAck
  | recvConfirm (ok : Bool)
deriving DecidableEq, Repr

/-- The `while not self.isConnectedToLoadBalancer` loop of
`_establishLoadBalancerConnection`, unrolled for `fuel` iterations.
Iteration `i` consumes `events i`; on a valid handshake packet the
acknowledgment is sent and the confirmation awaited, and only when the
confirmation arrives is the flag set and the loop left; every other
outcome leaves the flag false and retries.  Returns the flag and the
action trace. -/
def establishLoadBalancerLoop (events : ℕ → LbEvent) :
    ℕ → ℕ → Bool → List LbAction → Bool × List LbAction
  | _, 0, connected, trace => (connected, trace)
  | i, fuel + 1, connected, trace =>
    if connected then (connected, trace)
    else
      match events i with
      | .timeout => establishLoadBalancerLoop events (i + 1) fuel connected trace
      | .error => establishLoadBalancerLoop events (i + 1) fuel connected trace
      | .packet valid confirmOk =>
        if valid then
          if confirmOk then
            (true, trace ++ [.recvHandshake true, .sendAck, .recvConfirm true])
          else
            establishLoadBalancerLoop events (i + 1) fuel connected
              (trace ++ [.recvHandshake true, .sendAck, .recvConfirm false])
        else
          establishLoadBalancerLoop events (i + 1) fuel connected
            (trace ++ [.recvHandshake false])

/-- `_establishLoadBalancerConnection`: the discovery loop starting from
the DISCONNECTED state (`isConnectedToLoadBalancer = False`, empty
trace). -/
def establishLoadBalancerConnection (events : ℕ → LbEvent) (fuel : ℕ) :
    Bool × List LbAction :=
  establishLoadBalancerLoop events 0 fuel false []

theorem exists_range_shift (P : ℕ → Prop) (i n : ℕ) (hni : ¬ P i) :
    (∃ j, i + 1 ≤ j ∧ j < i + 1 + n ∧ P j) ↔
      (∃ j, i ≤ j ∧ j < i + (n + 1) ∧ P j) := by
  constructor
  · rintro ⟨j, h1, h2, h3⟩
    exact ⟨j, by omega, by omega, h3⟩
  · rintro ⟨j, h1, h2, h3⟩
    refine ⟨j, ?_, by omega, h3⟩
    rcases Nat.eq_or_lt_of_le h1 with h | h
    · exact absurd (h ▸ h3) hni
    · omega

theorem establishLoop_timeout (events : ℕ → LbEvent) (i n : ℕ)
    (trace : List LbAction) (h : events i = LbEvent.timeout) :
    establishLoadBalancerLoop events i (n + 1) false trace =
      establishLoadBalancerLoop events (i + 1) n false trace := by
  rw [establishLoadBalancerLoop, if_neg (by simp), h]

theorem establishLoop_error (events : ℕ → LbEvent) (i n : ℕ)
    (trace : List LbAction) (h : events i = LbEvent.error) :
    establishLoadBalancerLoop events i (n + 1) false trace =
      establishLoadBalancerLoop events (i + 1) n false trace := by
  rw [establishLoadBalancerLoop, if_neg (by simp), h]

theorem establishLoop_invalid (events : ℕ → LbEvent) (i n : ℕ)
    (trace : List LbAction) (c : Bool)
    (h : events i = LbEvent.packet false c) :
    establishLoadBalancerLoop events i (n + 1) false trace =
      establishLoadBalancerLoop events (i + 1) n false
        (trace ++ [LbAction.recvHandshake false]) := by
  rw [establishLoadBalancerLoop, if_neg (by simp), h]
  rfl

theorem establishLoop_noconfirm (events : ℕ → LbEvent) (i n : ℕ)
    (trace : List LbAction) (h : events i = LbEvent.packet true false) :
    establishLoadBalancerLoop events i (n + 1) false trace =
      establishLoadBalancerLoop events (i + 1) n false
        (trace ++ [LbAction.recvHandshake true, LbAction.sendAck,
          LbAction.recvConfirm false]) := by
  rw [establishLoadBalancerLoop, if_neg (by simp), h]
  rfl

theorem establishLoop_success (events : ℕ → LbEvent) (i n : ℕ)
    (trace : List LbAction) (h : events i = LbEvent.packet true true) :
    establishLoadBalancerLoop events i (n + 1) false trace =
      (true, trace ++ [LbAction.recvHandshake true, LbAction.sendAck,
        LbAction.recvConfirm true]) := by
  rw [establishLoadBalancerLoop, if_neg (by simp), h]
  rfl

theorem establishLoop_true_iff (events : ℕ → LbEvent) :
    ∀ (fuel i : ℕ) (trace : List LbAction),
      (establishLoadBalancerLoop events i fuel false trace).1 = true ↔
        ∃ j, i ≤ j ∧ j < i + fuel ∧ events j = LbEvent.packet true true := by
  intro fuel
  induction fuel with
  | zero =>
    intro i trace
    simp only [establishLoadBalancerLoop]
    constructor
    · intro h; exact absurd h (by simp)
    · rintro ⟨j, h1, h2, _⟩; omega
  | succ n ih =>
    intro i trace
    cases hev : events i with
    | timeout =>
      rw [establishLoop_timeout events i n trace hev, ih]
      exact exists_range_shift _ i n (by simp [hev])
    | error =>
      rw [establishLoop_error events i n trace hev, ih]
      exact exists_range_shift _ i n (by simp [hev])
    | packet valid confirmOk =>
      cases valid with
      | false =>
        rw [establishLoop_invalid events i n trace confirmOk hev, ih]
        exact exists_range_shift _ i n (by simp [hev])
      | true =>
        cases confirmOk with
        | false =>
          rw [establishLoop_noconfirm events i n trace hev, ih]
          exact exists_range_shift _ i n (by simp [hev])
        | true =>
          rw [establishLoop_success events i n trace hev]
          constructor
          · intro _; exact ⟨i, le_refl i, by omega, hev⟩
          · intro _; rfl

theorem establishLoop_trace (events : ℕ → LbEvent) :
    ∀ (fuel i : ℕ) (trace : List LbAction),
      (establishLoadBalancerLoop events i fuel false trace).1 = true →
      ∃ pre, (establishLoadBalancerLoop events i fuel false trace).2 =
        pre ++ [LbAction.recvHandshake true, LbAction.sendAck,
          LbAction.recvConfirm true] := by
  intro fuel
  induction fuel with
  | zero =>
    intro i trace h
    exact absurd h (by simp [establishLoadBalancerLoop])
  | succ n ih =>
    intro i trace
    cases hev : events i with
    | timeout =>
      rw [establishLoop_timeout events i n trace hev]
      exact ih (i + 1) trace
    | error =>
      rw [establishLoop_error events i n trace hev]
      exact ih (i + 1) trace
    | packet valid confirmOk =>
      cases valid with
      | false =>
        rw [establishLoop_invalid events i n trace confirmOk hev]
        exact ih (i + 1) _
      | true =>
        cases confirmOk with
        | false =>
          rw [establishLoop_noconfirm events i n trace hev]
          exact ih (i + 1) _
        | true =>
          rw [establishLoop_success events i n trace hev]
          intro _
          exact ⟨trace, rfl⟩

/-- C2: `isConnectedToLoadBalancer` becomes true exactly when some
iteration of the discovery loop receives a valid versioned handshake
packet and then the confirmation; and whenever the flag is true the
action trace ends with the full three-step exchange in order — valid
handshake received, acknowledgment sent, confirmation received.  Every
failing or timed-out iteration leaves the flag false and the loop retries
from the DISCONNECTED state. -/
theorem C2_handshake_three_step (events : ℕ → LbEvent) (fuel : ℕ) :
    ((establishLoadBalancerConnection events fuel).1 = true ↔
      ∃ j, j < fuel ∧ events j = LbEvent.packet true true) ∧
    ((establishLoadBalancerConnection events fuel).1 = true →
      ∃ pre, (establishLoadBalancerConnection events fuel).2 =
        pre ++ [LbAction.recvHandshake true, LbAction.sendAck,
          LbAction.recvConfirm true]) := by
  constructor
  · rw [establishLoadBalancerConnection, establishLoop_true_iff]
    constructor
    · rintro ⟨j, _, h2, h3⟩; exact ⟨j, by omega, h3⟩
    · rintro ⟨j, h1, h2⟩; exact ⟨j, by omega, by omega, h2⟩
  · exact establishLoop_trace events fuel 0 []

/-- Witness for C2: with a valid handshake and confirmation arriving at
iteration 1, the flag is set. -/
theorem C2_handshake_three_step_witness :
    (establishLoadBalancerConnection
      (fun i => if i = 1 then LbEvent.packet true true else LbEvent.timeout)
      3).1 = true :=
  (C2_handshake_three_step
    (fun i => if i = 1 then LbEvent.packet true true else LbEvent.timeout)
    3).1.mpr ⟨1, by norm_num, by norm_num⟩

/-! ## Steady-state load-balancer loop (`_handleLoadBalancerProtocol`)
and bot AI loop (`executeEnhancedBotAI`) -/

/-- The `while self.isConnectedToLoadBalancer` steady-state loop of
`_handleLoadBalancerProtocol`, unrolled for `fuel` iterations starting at
iteration `i`.  `err j = true` models an exception raised by one of the
REGISTER_USER / AUTHENTICATE_USER / CACHE_PLAYER_DATA handlers at
iteration `j` (the handler bodies are not among the available source
files).  The `except` clause catches the exception, sets
`isConnectedToLoadBalancer = False` and breaks, so the function always
returns normally: the result is the final flag wrapped in `Except`, and
no `.error` is ever produced. -/
def handleLoadBalancerProtocolLoop (err : ℕ → Bool) :
    ℕ → ℕ → Bool → Except String Bool
  | _, 0, connected => .ok connected
  | i, fuel + 1, connected =>
    if connected then
      if err i then .ok false
      else handleLoadBalancerProtocolLoop err (i + 1) fuel connected
    else .ok connected

/-- The `while self.isConnectedToLoadBalancer` loop of
`executeEnhancedBotAI`: the number of bot ticks executed given the value
of the shared flag read before each iteration. -/
def executeEnhancedBotAITicks (flag : ℕ → Bool) : ℕ → ℕ → ℕ
  | _, 0 => 0
  | i, fuel + 1 =>
    if flag i then executeEnhancedBotAITicks flag (i + 1) fuel + 1 else 0

/-- C6: the steady-state loop always returns normally (`Except.ok`, never
an escaping exception, so the process does not terminate); the final flag
is false as soon as any iteration raises — and is true only when the link
was up and no iteration raised, so once demoted the flag stays false
until the discovery loop (`establishLoadBalancerConnection`, the only
code setting it true) succeeds again; and with the flag false the bot AI
loop executes zero ticks. -/
theorem C6_steady_loop_demotes (err : ℕ → Bool) (i fuel : ℕ)
    (connected : Bool) :
    handleLoadBalancerProtocolLoop err i fuel connected =
      .ok (connected && decide (∀ j, j < fuel → err (i + j) = false)) ∧
    (∀ n m, executeEnhancedBotAITicks (fun _ => false) n m = 0) := by
  constructor
  · induction fuel generalizing i connected with
    | zero => simp [handleLoadBalancerProtocolLoop]
    | succ n ih =>
      rw [handleLoadBalancerProtocolLoop]
      cases connected with
      | false => simp
      | true =>
        rw [if_pos rfl]
        cases herr : err i with
        | true =>
          have : ¬ (∀ j, j < n + 1 → err (i + j) = false) := by
            intro hall
            have := hall 0 (by omega)
            simp [herr] at this
          simp [this]
        | false =>
          rw [ih]
          have : (∀ j, j < n → err (i + 1 + j) = false) ↔
              (∀ j, j < n + 1 → err (i + j) = false) := by
            constructor
            · intro hall j hj
              cases j with
              | zero => simpa using herr
              | succ k =>
                have := hall k (by omega)
                have harith : i + 1 + k = i + (k + 1) := by omega
                rwa [harith] at this
            · intro hall j hj
              have := hall (j + 1) (by omega)
              have harith : i + (j + 1) = i + 1 + j := by omega
              rwa [harith] at this
          simp [this]
  · intro n m
    cases m <;> simp [executeEnhancedBotAITicks]

/-- Witness for C6: with an error at the first iteration the flag is
demoted, and the halted bot loop runs zero ticks. -/
theorem C6_steady_loop_demotes_witness :
    handleLoadBalancerProtocolLoop (fun _ => true) 0 5 true = .ok false ∧
    executeEnhancedBotAITicks (fun _ => false) 0 5 = 0 := by
  have h := C6_steady_loop_demotes (fun _ => true) 0 5 true
  refine ⟨h.1.trans (congrArg Except.ok (by decide)), h.2 0 5⟩

/-! ## Bot position publication (`_processEnhancedBotMovement`) -/

/-- The shared data touched when one moving bot's position is published:
its Entity Store record (`activePlayerData[botId]`), its delta entry
(`gameStateUpdates[botId]`), and its Player Grid position. -/
structure BotPublishState where
  storePos : ℤ × ℤ
  deltaPos : Option (ℤ × ℤ)
  gridPos : ℤ × ℤ
deriving DecidableEq, Repr

/-- First critical section of `_processEnhancedBotMovement`, held under
`playerDataLock` and `gameStateUpdateLock` together: write the bot's new
position into the Entity Store record and the delta accumulator. -/
def publishStoreAndDelta (p : ℤ × ℤ) (s : BotPublishState) : BotPublishState :=
  { s with storePos := p, deltaPos := some p }

/-- Second critical section, held under `spatialIndexLock` only, entered
after the first critical section has been released: write the bot's new
position into the Player Grid. -/
def publishGrid (p : ℤ × ℤ) (s : BotPublishState) : BotPublishState :=
  { s with gridPos := p }

/-- The states of the shared data that another thread (a broadcast
assembler or a collision query) can observe while one bot is being
published: before the first critical section, between the two critical
sections — no lock is held across the gap, so an observer acquiring the
locks there sees this state — and after the second. -/
def processEnhancedBotMovementStates (p : ℤ × ℤ) (s : BotPublishState) :
    List BotPublishState :=
  [s, publishStoreAndDelta p s, publishGrid p (publishStoreAndDelta p s)]

/-- C7 counterexample: a bot moving from `(0, 0)` to `(5, 5)`.  The state
between the two critical sections is observable, and there the Entity
Store already holds `(5, 5)` while the Player Grid still holds `(0, 0)`:
an observer sees the new position in one structure but not the other, so
the store/grid pair is not updated atomically. -/
theorem C7_counterexample :
    publishStoreAndDelta (5, 5) ⟨(0, 0), none, (0, 0)⟩ ∈
        processEnhancedBotMovementStates (5, 5) ⟨(0, 0), none, (0, 0)⟩ ∧
      (publishStoreAndDelta (5, 5) ⟨(0, 0), none, (0, 0)⟩).storePos = (5, 5) ∧
      (publishStoreAndDelta (5, 5) ⟨(0, 0), none, (0, 0)⟩).gridPos = (0, 0) :=
  ⟨List.mem_cons_of_mem _ (List.mem_cons_self _ _), rfl, rfl⟩

/-- C7 (amended): the Entity Store record and the delta entry are updated
together in one critical section, and at every observable point the
Player Grid holds the new position only if the store already does
(store-before-grid order); but the pair is not atomic: the point where
the store holds the new position and the grid still holds the old one is
observable. -/
theorem C7_publish_order_amended (p : ℤ × ℤ) (s : BotPublishState)
    (hgrid : s.gridPos ≠ p) (hstore : s.storePos ≠ p) :
    (∀ t ∈ processEnhancedBotMovementStates p s,
        t.gridPos = p → t.storePos = p) ∧
      (∀ t ∈ processEnhancedBotMovementStates p s,
        t.storePos = p → t.deltaPos = some p) ∧
      ∃ t ∈ processEnhancedBotMovementStates p s,
        t.storePos = p ∧ t.gridPos ≠ p := by
  refine ⟨?_, ?_, ?_⟩
  · intro t ht
    rcases List.mem_cons.mp ht with rfl | ht
    · intro hg; exact absurd hg hgrid
    · rcases List.mem_cons.mp ht with rfl | ht
      · intro _; rfl
      · rcases List.mem_cons.mp ht with rfl | ht
        · intro _; rfl
        · simp at ht
  · intro t ht
    rcases List.mem_cons.mp ht with rfl | ht
    · intro hsp; exact absurd hsp hstore
    · rcases List.mem_cons.mp ht with rfl | ht
      · intro _; rfl
      · rcases List.mem_cons.mp ht with rfl | ht
        · intro _; rfl
        · simp at ht
  · exact ⟨publishStoreAndDelta p s,
      List.mem_cons_of_mem _ (List.mem_cons_self _ _), rfl, hgrid⟩

/-- Witness for C7 (amended): a bot moving from `(0, 0)` to `(5, 5)`. -/
theorem C7_publish_order_amended_witness :
    ((⟨(0, 0), none, (0, 0)⟩ : BotPublishState).gridPos ≠ ((5 : ℤ), (5 : ℤ))) ∧
      ((⟨(0, 0), none, (0, 0)⟩ : BotPublishState).storePos ≠ ((5 : ℤ), (5 : ℤ))) ∧
      ((∀ t ∈ processEnhancedBotMovementStates (5, 5) ⟨(0, 0), none, (0, 0)⟩,
          t.gridPos = (5, 5) → t.storePos = (5, 5)) ∧
        (∀ t ∈ processEnhancedBotMovementStates (5, 5) ⟨(0, 0), none, (0, 0)⟩,
          t.storePos = (5, 5) → t.deltaPos = some (5, 5)) ∧
        ∃ t ∈ processEnhancedBotMovementStates (5, 5) ⟨(0, 0), none, (0, 0)⟩,
          t.storePos = (5, 5) ∧ t.gridPos ≠ (5, 5)) :=
  ⟨by decide, by decide,
    C7_publish_order_amended (5, 5) ⟨(0, 0), none, (0, 0)⟩ (by decide) (by decide)⟩

/-! ## Spatial initialization (`_initializeSpatialSystems`) -/

/-- `_initializeSpatialSystems`: load the map (`mapLoad` is the outcome
of `pytmx.TiledMap`, an external input producer), extract the collidable
tiles, and build the collision k-d tree.  The `except` clause of the
source logs the failure and re-raises it, so every failure propagates to
the caller — which is `EnhancedGameServer.__init__`, so a failure aborts
server construction. -/
def initializeSpatialSystems (mapLoad : Except String (List MapLayer)) :
    Except String
      (List CollisionTile ×
        (List (ℚ × ℚ) × ((ℚ × ℚ) → Option CollisionTile))) :=
  match mapLoad with
  | .error e => .error e
  | .ok layers =>
    match buildOptimizedCollisionKdTreeE (extractCollidableTilesOptimized layers) with
    | .error e => .error e
    | .ok built => .ok (extractCollidableTilesOptimized layers, built)

/-- C9: if the game map input is missing or corrupt (the map load
raises), spatial initialization re-raises that error, so server
construction fails; and every successful initialization carries a validly
built spatial index whose tree is exactly the centers of the extracted
tiles — the process never starts serving without a valid spatial
index. -/
theorem C9_spatial_failure_fatal (e : String)
    (mapLoad : Except String (List MapLayer)) :
    initializeSpatialSystems (.error e) = .error e ∧
      ∀ result, initializeSpatialSystems mapLoad = .ok result →
        result.1 ≠ [] ∧ result.2.1 = result.1.map tileCenter := by
  constructor
  · rfl
  · intro result hres
    cases mapLoad with
    | error e2 => exact absurd hres (by simp [initializeSpatialSystems])
    | ok layers =>
      rw [initializeSpatialSystems] at hres
      cases hb : buildOptimizedCollisionKdTreeE
          (extractCollidableTilesOptimized layers) with
      | error e2 => rw [hb] at hres; exact absurd hres (by simp)
      | ok built =>
        rw [hb] at hres
        have hres2 : result = (extractCollidableTilesOptimized layers, built) := by
          simpa using hres.symm
        rw [buildOptimizedCollisionKdTreeE] at hb
        cases htiles : extractCollidableTilesOptimized layers with
        | nil => rw [htiles] at hb; exact absurd hb (by simp [kdtreeBuild])
        | cons t ts =>
          rw [htiles] at hb
          have hb2 : built = ((t :: ts).map tileCenter,
              dictOfPairs (((t :: ts).map tileCenter).zip (t :: ts))) := by
            simpa [kdtreeBuild] using hb.symm
          rw [hres2, hb2, htiles]
          exact ⟨by simp, rfl⟩

/-- Witness for C9: a missing map file aborts initialization with the
same error. -/
theorem C9_spatial_failure_fatal_witness :
    initializeSpatialSystems (Except.error "map file not found") =
      .error "map file not found" :=
  (C9_spatial_failure_fatal "map file not found"
    (Except.error "map file not found")).1

/-! ## Bot spawning (`spawnEnhancedBotsInRegion`) -/

/-- The record written into `activePlayerData[botIndex]` for a spawned
bot: `{'x': spawnX, 'y': spawnY, 'type': enhancedBot.isAggressive,
'angle': 0, 'health': 100}`. -/
structure PlayerRecord where
  x : ℤ
  y : ℤ
  type : Bool
  angle : ℤ
  health : ℤ
deriving DecidableEq, Repr

/-- Modelled from the spec: the `EnhancedBot` of the missing
`src.entities.enhanced_bot_manager` module, as far as
`spawnEnhancedBotsInRegion` constructs it — spawn position, the
aggressiveness draw (`random.random() < 0.5`), and `targetX = targetY =
0`; the collision-tree arguments carry no bot state of their own. -/
structure EnhancedBot where
  spawnX : ℤ
  spawnY : ℤ
  isAggressive : Bool
  targetX : ℤ
  targetY : ℤ
deriving DecidableEq, Repr

/-- The four entity structures written by bot spawning.  Python dicts are
modelled as association lists whose lookup takes the last binding.
`spatialPlayerGrid` models the `EnhancedPlayerGrid` of the missing
`src.spatial.optimized_player_grid` module by what the spec's
`addOrUpdate(id, x, y)` contract guarantees: the grid holds each id at
its latest coordinates. -/
structure ServerEntityState where
  activePlayerData : List (ℕ × PlayerRecord)
  gameStateUpdates : List (ℕ × List (String × ℤ))
  enhancedBotManager : List (ℕ × EnhancedBot)
  spatialPlayerGrid : List (ℕ × (ℤ × ℤ))

/-- A freshly initialized server: all four structures empty. -/
def freshServerEntityState : ServerEntityState := ⟨[], [], [], []⟩

/-- Python dict assignment `d[k] = v`, modelled by appending the binding;
lookup (`dictOfPairs`) takes the last binding, so a later assignment
overwrites an earlier one. -/
def dictSet {β : Type} (d : List (ℕ × β)) (k : ℕ) (v : β) : List (ℕ × β) :=
  d ++ [(k, v)]

/-- The body of `for botIndex, (spawnX, spawnY) in enumerate(spawnPositions)`:
construct the bot (`aggro botIndex` is its `random.random() < 0.5` draw)
and write the four structures under their lock groups. -/
def spawnBotStep (aggro : ℕ → Bool) (botIndex : ℕ) (p : ℤ × ℤ)
    (s : ServerEntityState) : ServerEntityState :=
  { activePlayerData :=
      dictSet s.activePlayerData botIndex ⟨p.1, p.2, aggro botIndex, 0, 100⟩
    gameStateUpdates := dictSet s.gameStateUpdates botIndex []
    enhancedBotManager :=
      dictSet s.enhancedBotManager botIndex ⟨p.1, p.2, aggro botIndex, 0, 0⟩
    spatialPlayerGrid := dictSet s.spatialPlayerGrid botIndex p }

/-- The spawn loop over the generated positions, `botIndex` starting at
the given key. -/
def spawnBotsLoop (aggro : ℕ → Bool) :
    List (ℤ × ℤ) → ℕ → ServerEntityState → ServerEntityState
  | [], _, s => s
  | p :: rest, botIndex, s =>
    spawnBotsLoop aggro rest (botIndex + 1) (spawnBotStep aggro botIndex p s)

/-- The region spawn corner: the
`{1: (0,0), 2: (W,0), 3: (W,H), 4: (0,H)}.get(serverRegionIndex, (0,0))`
dictionary of `spawnEnhancedBotsInRegion`. -/
def regionCorner (serverRegionIndex : ℕ)
    (serverBoundaryCoordinates : ℤ × ℤ) : ℤ × ℤ :=
  match serverRegionIndex with
  | 1 => (0, 0)
  | 2 => (serverBoundaryCoordinates.1, 0)
  | 3 => serverBoundaryCoordinates
  | 4 => (0, serverBoundaryCoordinates.2)
  | _ => (0, 0)

/-- The spawn positions generated by `spawnEnhancedBotsInRegion`. -/
def spawnedPositions (stream : ℕ → ℤ × ℤ) (serverRegionIndex : ℕ)
    (serverBoundaryCoordinates : ℤ × ℤ) (numberOfBots : ℕ) : List (ℤ × ℤ) :=
  (generateOptimizedSpawnPositions stream
    (regionCorner serverRegionIndex serverBoundaryCoordinates).1
    (regionCorner serverRegionIndex serverBoundaryCoordinates).2
    numberOfBots).1

/-- `spawnEnhancedBotsInRegion(numberOfBots)`: compute the region corner,
generate the spawn positions, then populate the four structures for
`botIndex = 0, 1, ...` in enumeration order. -/
def spawnEnhancedBotsInRegion (stream : ℕ → ℤ × ℤ) (aggro : ℕ → Bool)
    (serverRegionIndex : ℕ) (serverBoundaryCoordinates : ℤ × ℤ)
    (numberOfBots : ℕ) (s : ServerEntityState) : ServerEntityState :=
  spawnBotsLoop aggro
    (spawnedPositions stream serverRegionIndex serverBoundaryCoordinates
      numberOfBots) 0 s

theorem dictOfPairs_append_single {α β : Type} [DecidableEq α]
    (d : List (α × β)) (k j : α) (v : β) :
    dictOfPairs (d ++ [(k, v)]) j =
      if j = k then some v else dictOfPairs d j := by
  induction d with
  | nil =>
    simp only [List.nil_append, dictOfPairs]
    by_cases h : j = k
    · subst h; simp
    · rw [if_neg (fun hh => h hh.symm), if_neg h]
  | cons a d ih =>
    obtain ⟨a1, a2⟩ := a
    have hstep : dictOfPairs (((a1, a2) :: d) ++ [(k, v)]) j =
        match dictOfPairs (d ++ [(k, v)]) j with
        | some w => some w
        | none => if a1 = j then some a2 else none := rfl
    have hstep2 : dictOfPairs ((a1, a2) :: d) j =
        match dictOfPairs d j with
        | some w => some w
        | none => if a1 = j then some a2 else none := rfl
    rw [hstep, hstep2, ih]
    by_cases h : j = k
    · rw [if_pos h, if_pos h]
    · rw [if_neg h, if_neg h]

/-- Generic accumulator for the per-bot dictionary writes of the spawn
loop: starting at key `n`, write `g k p` under key `k` for each
successive position `p`. -/
def fillLoop {β : Type} (g : ℕ → ℤ × ℤ → β) :
    List (ℤ × ℤ) → ℕ → List (ℕ × β) → List (ℕ × β)
  | [], _, d => d
  | p :: rest, n, d => fillLoop g rest (n + 1) (dictSet d n (g n p))

theorem fillLoop_get {β : Type} (g : ℕ → ℤ × ℤ → β) :
    ∀ (ps : List (ℤ × ℤ)) (n : ℕ) (d : List (ℕ × β)) (i : ℕ),
      dictOfPairs (fillLoop g ps n d) i =
        if n ≤ i ∧ i < n + ps.length then (ps[i - n]?).map (g i)
        else dictOfPairs d i := by
  intro ps
  induction ps with
  | nil =>
    intro n d i
    rw [fillLoop, if_neg (by simp)]
  | cons p rest ih =>
    intro n d i
    rw [fillLoop, ih]
    by_cases h1 : n + 1 ≤ i ∧ i < n + 1 + rest.length
    · rw [if_pos h1, if_pos (by simp only [List.length_cons]; omega)]
      have harith : i - n = (i - (n + 1)) + 1 := by omega
      rw [harith, List.getElem?_cons_succ]
    · rw [if_neg h1]
      unfold dictSet
      rw [dictOfPairs_append_single]
      by_cases h2 : i = n
      · subst h2
        rw [if_pos rfl, if_pos (by simp only [List.length_cons]; omega)]
        simp
      · rw [if_neg h2, if_neg (by simp only [List.length_cons]; omega)]

theorem fillLoop_get_zero {β : Type} (g : ℕ → ℤ × ℤ → β)
    (ps : List (ℤ × ℤ)) (i : ℕ) :
    dictOfPairs (fillLoop g ps 0 []) i = (ps[i]?).map (g i) := by
  rw [fillLoop_get]
  by_cases h : i < ps.length
  · rw [if_pos ⟨Nat.zero_le i, by omega⟩]
    simp
  · rw [if_neg (by omega), List.getElem?_eq_none (by omega)]
    rfl

theorem spawnBotsLoop_components (aggro : ℕ → Bool) :
    ∀ (ps : List (ℤ × ℤ)) (n : ℕ) (s : ServerEntityState),
      (spawnBotsLoop aggro ps n s).activePlayerData =
        fillLoop (fun k p => (⟨p.1, p.2, aggro k, 0, 100⟩ : PlayerRecord)) ps n
          s.activePlayerData ∧
      (spawnBotsLoop aggro ps n s).gameStateUpdates =
        fillLoop (fun _ _ => ([] : List (String × ℤ))) ps n
          s.gameStateUpdates ∧
      (spawnBotsLoop aggro ps n s).enhancedBotManager =
        fillLoop (fun k p => (⟨p.1, p.2, aggro k, 0, 0⟩ : EnhancedBot)) ps n
          s.enhancedBotManager ∧
      (spawnBotsLoop aggro ps n s).spatialPlayerGrid =
        fillLoop (fun _ p => p) ps n s.spatialPlayerGrid := by
  intro ps
  induction ps with
  | nil => intro n s; exact ⟨rfl, rfl, rfl, rfl⟩
  | cons p rest ih =>
    intro n s
    simp only [spawnBotsLoop, fillLoop]
    exact ih (n + 1) (spawnBotStep aggro n p s)

theorem spawnLoop_length (stream : ℕ → ℤ × ℤ) (bx b_y : ℤ) (count : ℕ) :
    ∀ (fuel : ℕ) (positions : List (ℤ × ℤ)) (attempts : ℕ),
      positions.length ≤ count →
      (spawnLoop stream bx b_y count positions attempts fuel).1.length ≤ count := by
  intro fuel
  induction fuel with
  | zero => intro positions attempts h1; exact h1
  | succ n ih =>
    intro positions attempts h1
    rw [spawnLoop]
    split
    · rename_i hlt
      apply ih
      rcases spawnStep_sub stream bx b_y positions attempts with he | he <;> rw [he]
      · exact h1
      · simpa using hlt
    · exact h1

/-- C10: after `spawnEnhancedBotsInRegion(N)` on a freshly initialized
server, the spawned bot ids are exactly `0 .. k-1` for the `k ≤ N`
generated positions (every lookup outside that range is `none`), and for
each id the four structures agree: the `activePlayerData` record holds
the spawn position with the aggressiveness draw, angle 0 and health 100;
the `gameStateUpdates` delta is empty; the bot manager holds the bot
object at the spawn position with zero target; and the player grid holds
the id at the spawn position. -/
theorem C10_spawn_consistency (stream : ℕ → ℤ × ℤ) (aggro : ℕ → Bool)
    (serverRegionIndex : ℕ) (serverBoundaryCoordinates : ℤ × ℤ)
    (numberOfBots : ℕ) :
    (spawnedPositions stream serverRegionIndex serverBoundaryCoordinates
        numberOfBots).length ≤ numberOfBots ∧
      (∀ i, dictOfPairs
          (spawnEnhancedBotsInRegion stream aggro serverRegionIndex
            serverBoundaryCoordinates numberOfBots
            freshServerEntityState).activePlayerData i =
        ((spawnedPositions stream serverRegionIndex serverBoundaryCoordinates
            numberOfBots)[i]?).map
          (fun p => (⟨p.1, p.2, aggro i, 0, 100⟩ : PlayerRecord))) ∧
      (∀ i, dictOfPairs
          (spawnEnhancedBotsInRegion stream aggro serverRegionIndex
            serverBoundaryCoordinates numberOfBots
            freshServerEntityState).gameStateUpdates i =
        ((spawnedPositions stream serverRegionIndex serverBoundaryCoordinates
            numberOfBots)[i]?).map
          (fun _ => ([] : List (String × ℤ)))) ∧
      (∀ i, dictOfPairs
          (spawnEnhancedBotsInRegion stream aggro serverRegionIndex
            serverBoundaryCoordinates numberOfBots
            freshServerEntityState).enhancedBotManager i =
        ((spawnedPositions stream serverRegionIndex serverBoundaryCoordinates
            numberOfBots)[i]?).map
          (fun p => (⟨p.1, p.2, aggro i, 0, 0⟩ : EnhancedBot))) ∧
      (∀ i, dictOfPairs
          (spawnEnhancedBotsInRegion stream aggro serverRegionIndex
            serverBoundaryCoordinates numberOfBots
            freshServerEntityState).spatialPlayerGrid i =
        (spawnedPositions stream serverRegionIndex serverBoundaryCoordinates
            numberOfBots)[i]?) := by
  have hcomp := spawnBotsLoop_components aggro
    (spawnedPositions stream serverRegionIndex serverBoundaryCoordinates
      numberOfBots) 0 freshServerEntityState
  refine ⟨?_, fun i => ?_, fun i => ?_, fun i => ?_, fun i => ?_⟩
  · exact spawnLoop_length stream
      (regionCorner serverRegionIndex serverBoundaryCoordinates).1
      (regionCorner serverRegionIndex serverBoundaryCoordinates).2
      numberOfBots (numberOfBots * 10) [] 0 (by simp)
  · rw [spawnEnhancedBotsInRegion, hcomp.1]
    simp only [freshServerEntityState]
    rw [fillLoop_get_zero]
  · rw [spawnEnhancedBotsInRegion, hcomp.2.1]
    simp only [freshServerEntityState]
    rw [fillLoop_get_zero]
  · rw [spawnEnhancedBotsInRegion, hcomp.2.2.1]
    simp only [freshServerEntityState]
    rw [fillLoop_get_zero]
  · rw [spawnEnhancedBotsInRegion, hcomp.2.2.2]
    simp only [freshServerEntityState]
    rw [fillLoop_get_zero]
    cases (spawnedPositions stream serverRegionIndex serverBoundaryCoordinates
      numberOfBots)[i]? <;> rfl

/-- Witness for C10: one bot spawned with the constant zero stream in
region 1; its grid entry equals its generated spawn position. -/
theorem C10_spawn_consistency_witness :
    dictOfPairs (spawnEnhancedBotsInRegion (fun _ => ((0 : ℤ), (0 : ℤ)))
        (fun _ => false) 1 (1000, 1000) 1
        freshServerEntityState).spatialPlayerGrid 0 =
      (spawnedPositions (fun _ => ((0 : ℤ), (0 : ℤ))) 1 (1000, 1000) 1)[0]? :=
  (C10_spawn_consistency (fun _ => ((0 : ℤ), (0 : ℤ))) (fun _ => false) 1
    (1000, 1000) 1).2.2.2.2 0

end MysticRealms
